import Mathlib

/-!
Verification of the AI Builder backend's project file-tree model.

The definitions below are a shallow embedding of the TypeScript handlers in
`server/src/handlers` together with the relational schema in
`server/src/db/schema.ts`.  The database is modelled as explicit lists of rows;
each handler becomes a pure function from a database state (plus the request
input, the requesting user id, and the current time) to an `Except` value, with
error messages taken verbatim from the source.  Timestamps are natural numbers
(`now` models the `new Date()` / `Date.now()` taken inside a handler), and the
`serial` primary keys are modelled by id counters carried in the state.

Two handlers (`createProjectFile`, `updateProject`) are placeholder stubs in
the repository ("This is a placeholder declaration! Real code should be
implemented here"); those are modelled from the specification and the
handlers' test suites, and are marked as such in their doc comments.
-/

namespace AiBuilder

deriving instance DecidableEq for Except

/-- The `file_type` enum of `db/schema.ts`:
`pgEnum('file_type', ['file', 'directory'])`. -/
inductive FileType where
  | file
  | directory
deriving Repr, DecidableEq

/-- Postgres sorts an enum column by its declaration order, not alphabetically;
`db/schema.ts` declares `'file'` before `'directory'`, so `'file'` is the
smaller value under `ORDER BY file_type ASC`. -/
def FileType.pgIndex : FileType → Nat
  | .file => 0
  | .directory => 1

/-- A row of the `users` table. -/
structure UserRow where
  id : Nat
  email : String
  password_hash : String
  name : String
  created_at : Nat
  updated_at : Nat
deriving Repr, DecidableEq

/-- A row of the `projects` table.  The opaque JSON `metadata` column is
modelled as an association list. -/
structure ProjectRow where
  id : Nat
  name : String
  description : Option String
  user_id : Nat
  metadata : Option (List (String × String))
  created_at : Nat
  updated_at : Nat
deriving Repr, DecidableEq

/-- A row of the `project_files` table. -/
structure ProjectFileRow where
  id : Nat
  project_id : Nat
  path : String
  content : String
  file_type : FileType
  parent_id : Option Nat
  created_at : Nat
  updated_at : Nat
deriving Repr, DecidableEq

/-- The database state: the three tables plus the `serial` id counters. -/
structure DB where
  users : List UserRow
  projects : List ProjectRow
  files : List ProjectFileRow
  nextFileId : Nat
  nextProjectId : Nat
deriving Repr, DecidableEq

/-- JS `x || null` on a nullable string input: `null`, `undefined` and `""`
are all falsy and map to `null`. -/
def jsOrNull (x : Option String) : Option String :=
  match x with
  | some s => if s = "" then none else some s
  | none => none

/-- The ownership-guard query shared by the handlers:
`db.select().from(projectsTable).where(and(eq(projectsTable.id, pid),
eq(projectsTable.user_id, uid)))`. -/
def ownedProject (db : DB) (pid uid : Nat) : List ProjectRow :=
  db.projects.filter (fun p => p.id == pid && p.user_id == uid)

/-- The inner join used by the file handlers: `project_files` joined to
`projects` on `project_id = projects.id`, restricted to
`project_files.id = fid` and `projects.user_id = uid`. -/
def fileWithOwnedProject (db : DB) (fid uid : Nat) : List (ProjectFileRow × ProjectRow) :=
  (db.files.filter (fun f => f.id == fid)).flatMap (fun f =>
    (db.projects.filter (fun p => p.id == f.project_id && p.user_id == uid)).map
      (fun p => (f, p)))

/-- Input of `createProjectFile` (`createProjectFileInputSchema` in
`schema.ts`): `parent_id` is a required nullable field. -/
structure CreateProjectFileInput where
  project_id : Nat
  path : String
  content : String
  file_type : FileType
  parent_id : Option Nat
deriving Repr, DecidableEq

/-- Appending a freshly inserted `project_files` row, with the `serial` id and
the `defaultNow()` timestamps assigned by the database. -/
def insertFile (db : DB) (input : CreateProjectFileInput) (now : Nat) : ProjectFileRow × DB :=
  let row : ProjectFileRow :=
    { id := db.nextFileId
      project_id := input.project_id
      path := input.path
      content := input.content
      file_type := input.file_type
      parent_id := input.parent_id
      created_at := now
      updated_at := now }
  (row, { db with files := db.files ++ [row], nextFileId := db.nextFileId + 1 })

/-- Modelled from the spec: `create_project_file.ts` contains only a
placeholder stub, so the handler is modelled from §4.2 of the specification
and from `tests/create_project_file.test.ts`.  Checked in order: (a) the
ownership guard; (b) no existing file of the project with the same `path`,
else the `PathConflict` error; (c) if `parent_id` is given, a file with that
id must exist in the same project (`ParentNotFound`) and be a directory
(`ParentNotDirectory`); then the row is inserted. -/
def createProjectFile (db : DB) (input : CreateProjectFileInput) (userId now : Nat) :
    Except String (ProjectFileRow × DB) :=
  if ownedProject db input.project_id userId = [] then
    .error "Project not found or access denied"
  else if db.files.any (fun f => f.project_id == input.project_id && f.path == input.path) then
    .error "File path already exists"
  else
    match input.parent_id with
    | none => .ok (insertFile db input now)
    | some pid =>
      match (db.files.filter (fun f => f.id == pid && f.project_id == input.project_id)).head? with
      | none => .error "Parent directory not found"
      | some parent =>
        if parent.file_type = FileType.directory then .ok (insertFile db input now)
        else .error "Parent must be a directory"

/-- Input of `updateProjectFile` (`updateProjectFileInputSchema`): every field
but `id` is optional, and `parent_id` is additionally nullable, hence the
doubled `Option`. -/
structure UpdateProjectFileInput where
  id : Nat
  path : Option String := none
  content : Option String := none
  file_type : Option FileType := none
  parent_id : Option (Option Nat) := none
deriving Repr, DecidableEq

/-- The `updateData` record of `update_project_file.ts` applied to a row:
`updated_at` is always set to a fresh timestamp, and each of the four
content fields is overwritten exactly when it was supplied
(`input.field !== undefined`). -/
def applyFileUpdate (input : UpdateProjectFileInput) (now : Nat) (f : ProjectFileRow) :
    ProjectFileRow :=
  { f with
    updated_at := now
    path := input.path.getD f.path
    content := input.content.getD f.content
    file_type := input.file_type.getD f.file_type
    parent_id :=
      match input.parent_id with
      | some p => p
      | none => f.parent_id }

/-- `update_project_file.ts`: ownership guard via the join, then the path
conflict check (note the JS truthiness test `input.path && input.path !==
existingFile.path`, under which an empty-string path skips the check), then
the partial update.  The final `if` models the `parent_id` foreign key of
`db/schema.ts` (`parent_id` references `project_files.id`), which the
database enforces at the `UPDATE` statement; the handler itself performs no
parent validation.  The returned row is `result[0]` of `.returning()`, i.e.
the updated row of the (primary-key-unique) matched id. -/
def updateProjectFile (db : DB) (input : UpdateProjectFileInput) (userId now : Nat) :
    Except String (ProjectFileRow × DB) :=
  match (fileWithOwnedProject db input.id userId).head? with
  | none => .error "File not found or access denied"
  | some (existingFile, _) =>
    let conflict : Bool :=
      match input.path with
      | some p =>
        if p ≠ "" ∧ p ≠ existingFile.path then
          (db.files.filter (fun f => f.project_id == existingFile.project_id && f.path == p)) ≠ []
        else false
      | none => false
    if conflict then
      .error "A file with this path already exists in the project"
    else
      let fkOk : Bool :=
        match input.parent_id with
        | some (some pid) => db.files.any (fun f => f.id == pid)
        | _ => true
      if fkOk then
        let newFiles := db.files.map (fun f =>
          if f.id == input.id then applyFileUpdate input now f else f)
        .ok (applyFileUpdate input now existingFile, { db with files := newFiles })
      else
        .error "insert or update on table project_files violates foreign key constraint"

/-- The real `deleteProjectFile` (the handler file holds only a placeholder;
the implementation appears among the unnamed source parts): ownership guard
via the join, then, for a directory, the `parent_id = fileId` children query
guarding the `DirectoryNotEmpty` error, then the delete.  The second guard
models the `parent_id` foreign key of `db/schema.ts` (no `ON DELETE` action),
which the database enforces at the `DELETE` statement; rows deleted by the
same statement do not count as referencing.  The returned boolean is
`rowCount > 0`. -/
def deleteProjectFile (db : DB) (fileId userId : Nat) : Except String (Bool × DB) :=
  match (fileWithOwnedProject db fileId userId).head? with
  | none => .error "File not found or access denied"
  | some (fileData, _) =>
    if fileData.file_type = FileType.directory ∧
        (db.files.filter (fun f => f.parent_id == some fileId)) ≠ [] then
      .error "Cannot delete directory that contains files or subdirectories"
    else if db.files.any (fun f => f.parent_id == some fileId && f.id != fileId) then
      .error "update or delete on table project_files violates foreign key constraint"
    else
      let newFiles := db.files.filter (fun f => f.id ≠ fileId)
      .ok (decide (newFiles.length < db.files.length), { db with files := newFiles })

/-- Input of `createProject` (`createProjectInputSchema`): `description` is a
required nullable field, `metadata` is optional. -/
structure CreateProjectInput where
  name : String
  description : Option String
  user_id : Nat
  metadata : Option (List (String × String))
deriving Repr, DecidableEq

/-- The real `createProject` (among the unnamed source parts): validates that
the owning user exists, inserts the project row (`input.description || null`
turns an empty string into `null`), then seeds the `/src` and `/public`
directories for the new project. -/
def createProject (db : DB) (input : CreateProjectInput) (now : Nat) :
    Except String (ProjectRow × DB) :=
  if db.users.filter (fun u => u.id == input.user_id) = [] then
    .error ("User with id " ++ toString input.user_id ++ " does not exist")
  else
    let project : ProjectRow :=
      { id := db.nextProjectId
        name := input.name
        description := jsOrNull input.description
        user_id := input.user_id
        metadata := input.metadata
        created_at := now
        updated_at := now }
    let srcDir : ProjectFileRow :=
      { id := db.nextFileId, project_id := project.id, path := "/src", content := ""
        file_type := .directory, parent_id := none, created_at := now, updated_at := now }
    let publicDir : ProjectFileRow :=
      { id := db.nextFileId + 1, project_id := project.id, path := "/public", content := ""
        file_type := .directory, parent_id := none, created_at := now, updated_at := now }
    .ok (project,
      { db with
        projects := db.projects ++ [project]
        files := db.files ++ [srcDir, publicDir]
        nextFileId := db.nextFileId + 2
        nextProjectId := db.nextProjectId + 1 })

/-- Input of `updateProject` (`updateProjectInputSchema`): `name` is optional,
`description` and `metadata` are optional and nullable. -/
structure UpdateProjectInput where
  id : Nat
  name : Option String := none
  description : Option (Option String) := none
  metadata : Option (Option (List (String × String))) := none
deriving Repr, DecidableEq

/-- Modelled from the spec: `update_project.ts` contains only a placeholder
stub, so the handler is modelled from §4.1 and §4.3 of the specification: the
ownership guard fails with the `NotFoundOrUnauthorized` error, then only the
supplied fields are changed and `updated_at` is refreshed.  Project ids are
primary-key unique, so replacing every row of the matched id updates the one
guarded row. -/
def updateProject (db : DB) (input : UpdateProjectInput) (userId now : Nat) :
    Except String (ProjectRow × DB) :=
  match (ownedProject db input.id userId).head? with
  | none => .error "Project not found or unauthorized"
  | some p =>
    let updated : ProjectRow :=
      { p with
        name := input.name.getD p.name
        description :=
          match input.description with
          | some d => d
          | none => p.description
        metadata :=
          match input.metadata with
          | some m => m
          | none => p.metadata
        updated_at := now }
    .ok (updated,
      { db with projects := db.projects.map (fun q => if q.id == input.id then updated else q) })

/-- The real `deleteProject`: ownership guard, then
`DELETE FROM projects WHERE id = projectId AND user_id = userId`; the
`ON DELETE CASCADE` foreign key of `db/schema.ts` removes the project's file
rows (project ids are primary-key unique). -/
def deleteProject (db : DB) (projectId userId : Nat) : Except String (Bool × DB) :=
  if ownedProject db projectId userId = [] then
    .error "Project not found or unauthorized"
  else
    .ok (true,
      { db with
        projects := db.projects.filter (fun p => !(p.id == projectId && p.user_id == userId))
        files := db.files.filter (fun f => f.project_id ≠ projectId) })

/-- The comparison realised by `ORDER BY file_type ASC, path ASC` in
`get_project_files.ts`: the enum column sorts by its declaration order
(`FileType.pgIndex`), ties broken by the lexicographic order on `path`. -/
def fileOrder (a b : ProjectFileRow) : Bool :=
  a.file_type.pgIndex < b.file_type.pgIndex ||
    (a.file_type.pgIndex == b.file_type.pgIndex && decide (a.path ≤ b.path))

/-- Insertion step of the `ORDER BY` sort. -/
def orderByInsert (a : ProjectFileRow) : List ProjectFileRow → List ProjectFileRow
  | [] => [a]
  | b :: rest => if fileOrder a b then a :: b :: rest else b :: orderByInsert a rest

/-- The `ORDER BY file_type ASC, path ASC` clause, realised as an insertion
sort by `fileOrder`. -/
def orderBy : List ProjectFileRow → List ProjectFileRow
  | [] => []
  | a :: rest => orderByInsert a (orderBy rest)

/-- The real `getProjectFiles`: ownership guard, then all rows of the project
ordered by `file_type` ascending and `path` ascending. -/
def getProjectFiles (db : DB) (projectId userId : Nat) : Except String (List ProjectFileRow) :=
  if ownedProject db projectId userId = [] then
    .error "Project not found or access denied"
  else
    .ok (orderBy (db.files.filter (fun f => f.project_id == projectId)))

/-- Input of `loginUser` (`loginUserInputSchema`). -/
structure LoginUserInput where
  email : String
  password : String
deriving Repr, DecidableEq

/-- `login_user.ts`: look the user up by email, then verify the password.
Both failure branches throw with the same message.  The pbkdf2 password
verification is cryptographic and enters the embedding as the `verify`
parameter; the JWT-style token of the success branch (an HMAC signature over
the current time) is likewise outside the embedding, so the success value is
the authenticated user row. -/
def loginUser (verify : String → String → Bool) (db : DB) (input : LoginUserInput) :
    Except String UserRow :=
  match (db.users.filter (fun u => u.email == input.email)).head? with
  | none => .error "Invalid email or password"
  | some user =>
    if verify input.password user.password_hash then .ok user
    else .error "Invalid email or password"

/-- The `environment` enum of `deploymentRequestSchema`. -/
inductive DeployEnv where
  | development
  | staging
  | production
deriving Repr, DecidableEq

/-- The string value carried by each `environment` enum member. -/
def DeployEnv.name : DeployEnv → String
  | .development => "development"
  | .staging => "staging"
  | .production => "production"

/-- Input of `deployProject` (`deploymentRequestSchema`). -/
structure DeploymentRequest where
  project_id : Nat
  deployment_config : Option (List (String × String)) := none
  environment : DeployEnv
deriving Repr, DecidableEq

/-- Membership in `[a-z0-9]`, the character class kept by the slug regex. -/
def isSlugChar (c : Char) : Bool :=
  (97 ≤ c.toNat && c.toNat ≤ 122) || (48 ≤ c.toNat && c.toNat ≤ 57)

/-- The dash-run replacement of the slug computation: every run of dashes
becomes a single dash. -/
def collapseDashes : List Char → List Char
  | [] => []
  | c :: rest =>
    if c = '-' then
      match collapseDashes rest with
      | '-' :: tail => '-' :: tail
      | tail => '-' :: tail
    else c :: collapseDashes rest

/-- `.replace(/^-|-$/g, '')`: one leading and one trailing dash are removed
(after run-collapsing there is at most one of each). -/
def stripEdgeDashes (cs : List Char) : List Char :=
  let cs1 := match cs with
    | '-' :: rest => rest
    | other => other
  match cs1.reverse with
  | '-' :: rest => rest.reverse
  | _ => cs1

/-- The slug computation of `generateDeploymentUrl`: lowercase, replace every
character outside `[a-z0-9]` with a dash, collapse dash runs, strip edge
dashes. -/
def slugify (name : String) : String :=
  let lowered := name.data.map Char.toLower
  let dashed := lowered.map (fun c => if isSlugChar c then c else '-')
  ⟨stripEdgeDashes (collapseDashes dashed)⟩

/-- The base-36 digit characters used by JS `Number.prototype.toString(36)`. -/
def digit36 (n : Nat) : Char :=
  if n < 10 then Char.ofNat (48 + n) else Char.ofNat (87 + n)

/-- Base-36 digit list of a natural number, most significant digit first. -/
def base36Digits (n : Nat) : List Char :=
  if _h : n < 36 then [digit36 n]
  else base36Digits (n / 36) ++ [digit36 (n % 36)]
termination_by n
decreasing_by
  exact Nat.div_lt_self (by omega) (by omega)

/-- `Date.now().toString(36)`, on the millisecond timestamp `n`. -/
def base36 (n : Nat) : String := ⟨base36Digits n⟩

/-- `generateDeploymentUrl` of `deploy_project.ts` (the `default` case of its
`switch` is unreachable for the three-member `environment` enum). -/
def generateDeploymentUrl (projectName : String) (environment : DeployEnv) (nowMs : Nat) :
    String :=
  let slug := slugify projectName
  let timestamp := base36 nowMs
  match environment with
  | .production => "https://" ++ slug ++ ".vercel.app"
  | .staging => "https://" ++ slug ++ "-staging-" ++ timestamp ++ ".vercel.app"
  | .development => "https://" ++ slug ++ "-dev-" ++ timestamp ++ ".vercel.app"

/-- Result record of `deployProject`. -/
structure DeployResult where
  message : String
  deployment_url : Option String
deriving Repr, DecidableEq

/-- The real `deployProject`: ownership guard, fetch the project's files,
refuse an empty project, then synthesize the deployment URL and success
message.  The artificial `setTimeout` delay is timing-only and not part of
the embedding. -/
def deployProject (db : DB) (input : DeploymentRequest) (userId nowMs : Nat) :
    Except String DeployResult :=
  match (ownedProject db input.project_id userId).head? with
  | none => .error "Project not found or access denied"
  | some project =>
    let projectFiles := db.files.filter (fun f => f.project_id == input.project_id)
    if projectFiles = [] then
      .error "No files found in project - cannot deploy empty project"
    else
      .ok
        { message := "Project \"" ++ project.name ++ "\" successfully deployed to " ++
            input.environment.name
          deployment_url := some (generateDeploymentUrl project.name input.environment nowMs) }

/-- Input of `generateWithAi` (`aiGenerationRequestSchema`).  The
`generation_type` field is kept as its runtime string value; the schema
constrains it to `generationTypeEnum`. -/
structure AiGenerationRequest where
  project_id : Nat
  prompt : String
  file_path : Option String := none
  generation_type : String
deriving Repr, DecidableEq

/-- The members of the `generation_type` enum in `schema.ts`. -/
def generationTypeEnum : List String := ["file", "component", "feature", "full_app"]

/-- Result record of `generateWithAi`. -/
structure AiResult where
  message : String
  generated_content : Option String
deriving Repr, DecidableEq

/-- JS `x || y` for an optional string: `null`, `undefined` and `""` are
falsy. -/
def jsOrStr (x : Option String) (y : String) : String :=
  match x with
  | some s => if s = "" then y else s
  | none => y

/-- `generate_with_ai.ts`: ownership guard, then the `switch` on
`generation_type` with its `default` throw, then the save-if-absent side
effect for `file` generations with a (truthy) `file_path`.  The four mock
template generators (pure template strings behind an artificial delay) enter
the embedding as function parameters. -/
def generateWithAi (genFile : String → Option String → String)
    (genComponent genFeature : String → String) (genFullApp : String → String → String)
    (db : DB) (input : AiGenerationRequest) (userId now : Nat) :
    Except String (AiResult × DB) :=
  match (ownedProject db input.project_id userId).head? with
  | none => .error "Project not found or access denied"
  | some project =>
    let dispatch : Except String (String × String) :=
      if input.generation_type = "file" then
        .ok (genFile input.prompt input.file_path,
          "Generated file content for " ++ jsOrStr input.file_path "new file")
      else if input.generation_type = "component" then
        .ok (genComponent input.prompt,
          "Generated component based on prompt: \"" ++ input.prompt ++ "\"")
      else if input.generation_type = "feature" then
        .ok (genFeature input.prompt,
          "Generated feature implementation based on prompt: \"" ++ input.prompt ++ "\"")
      else if input.generation_type = "full_app" then
        .ok (genFullApp input.prompt project.name,
          "Generated full application structure for project: " ++ project.name)
      else
        .error ("Unsupported generation type: " ++ input.generation_type)
    match dispatch with
    | .error e => .error e
    | .ok (generated_content, message) =>
      if (match input.file_path with
          | some fp => fp ≠ "" && input.generation_type == "file"
          | none => false) then
        let fp := jsOrStr input.file_path ""
        if db.files.filter (fun f => f.project_id == input.project_id && f.path == fp) = [] then
          let row : ProjectFileRow :=
            { id := db.nextFileId, project_id := input.project_id, path := fp
              content := generated_content, file_type := .file, parent_id := none
              created_at := now, updated_at := now }
          .ok ({ message := message ++ " and saved to project"
                 generated_content := some generated_content },
            { db with files := db.files ++ [row], nextFileId := db.nextFileId + 1 })
        else
          .ok ({ message := message ++ " (file already exists - content returned without saving)"
                 generated_content := some generated_content }, db)
      else
        .ok ({ message := message, generated_content := some generated_content }, db)

/-- The parent-validity condition of a single row (§3 invariant): when
`parent_id` is non-null, the referenced row exists among `files`, belongs to
the same project and is a directory. -/
def validParentB (files : List ProjectFileRow) (f : ProjectFileRow) : Bool :=
  match f.parent_id with
  | none => true
  | some pid =>
    files.any (fun d => d.id == pid && d.project_id == f.project_id &&
      d.file_type == FileType.directory)

/-- The §3 file-tree invariant over a table of file rows. -/
def parentOk (files : List ProjectFileRow) : Prop :=
  ∀ f ∈ files, validParentB files f = true

/-- States reachable from a database without file rows by any sequence of the
three file-tree operations (`createProjectFile`, `updateProjectFile`,
`deleteProjectFile`). -/
inductive Reach : DB → Prop where
  | init (db : DB) (h : db.files = []) : Reach db
  | create (db : DB) (input : CreateProjectFileInput) (userId now : Nat)
      (r : ProjectFileRow) (db' : DB) (hdb : Reach db)
      (hstep : createProjectFile db input userId now = .ok (r, db')) : Reach db'
  | update (db : DB) (input : UpdateProjectFileInput) (userId now : Nat)
      (r : ProjectFileRow) (db' : DB) (hdb : Reach db)
      (hstep : updateProjectFile db input userId now = .ok (r, db')) : Reach db'
  | del (db : DB) (fid uid : Nat) (b : Bool) (db' : DB) (hdb : Reach db)
      (hstep : deleteProjectFile db fid uid = .ok (b, db')) : Reach db'

/-- States reachable from a database without file rows by `createProjectFile`
and `deleteProjectFile` alone. -/
inductive ReachCD : DB → Prop where
  | init (db : DB) (h : db.files = []) : ReachCD db
  | create (db : DB) (input : CreateProjectFileInput) (userId now : Nat)
      (r : ProjectFileRow) (db' : DB) (hdb : ReachCD db)
      (hstep : createProjectFile db input userId now = .ok (r, db')) : ReachCD db'
  | del (db : DB) (fid uid : Nat) (b : Bool) (db' : DB) (hdb : ReachCD db)
      (hstep : deleteProjectFile db fid uid = .ok (b, db')) : ReachCD db'

/-- Concrete fixture: a user. -/
def sampleUser : UserRow :=
  { id := 7, email := "alice@example.com", password_hash := "salt:hash", name := "Alice"
    created_at := 0, updated_at := 0 }

/-- Concrete fixture: a project owned by `sampleUser`. -/
def sampleProject : ProjectRow :=
  { id := 1, name := "My App", description := none, user_id := 7, metadata := none
    created_at := 0, updated_at := 0 }

/-- Concrete fixture: the `/src` directory of `sampleProject`. -/
def sampleDir : ProjectFileRow :=
  { id := 1, project_id := 1, path := "/src", content := "", file_type := .directory
    parent_id := none, created_at := 0, updated_at := 0 }

/-- Concrete fixture: a file inside `sampleDir`. -/
def sampleFile : ProjectFileRow :=
  { id := 2, project_id := 1, path := "/src/index.ts", content := "console.log(1)"
    file_type := .file, parent_id := some 1, created_at := 0, updated_at := 0 }

/-- Concrete fixture: a database with one user, one project and two file
rows. -/
def sampleDb : DB :=
  { users := [sampleUser], projects := [sampleProject], files := [sampleDir, sampleFile]
    nextFileId := 3, nextProjectId := 2 }

/-- Concrete fixture: the same database with only the childless directory. -/
def sampleDbDirOnly : DB :=
  { users := [sampleUser], projects := [sampleProject], files := [sampleDir]
    nextFileId := 3, nextProjectId := 2 }

/-- Concrete fixture: the same database without any file row. -/
def sampleDbNoFiles : DB :=
  { users := [sampleUser], projects := [sampleProject], files := []
    nextFileId := 1, nextProjectId := 2 }

/-- Concrete fixture: a database with a user but no projects at all. -/
def orphanDb : DB :=
  { users := [sampleUser], projects := [], files := [], nextFileId := 1, nextProjectId := 1 }

/-- Concrete fixture: first root file of the C3 run. -/
def c3RowA : ProjectFileRow :=
  { id := 1, project_id := 1, path := "/a", content := "", file_type := .file
    parent_id := none, created_at := 0, updated_at := 0 }

/-- Concrete fixture: second root file of the C3 run. -/
def c3RowB : ProjectFileRow :=
  { id := 2, project_id := 1, path := "/b", content := "", file_type := .file
    parent_id := none, created_at := 0, updated_at := 0 }

/-- Concrete fixture: state after creating `/a` in `sampleDbNoFiles`. -/
def c3Db1 : DB := { sampleDbNoFiles with files := [c3RowA], nextFileId := 2 }

/-- Concrete fixture: state after also creating `/b`. -/
def c3Db2 : DB := { sampleDbNoFiles with files := [c3RowA, c3RowB], nextFileId := 3 }

/-- Concrete fixture: state after `updateProjectFile` re-parented `/a` under
the plain file `/b`. -/
def c3Db3 : DB :=
  { sampleDbNoFiles with
    files := [{ c3RowA with parent_id := some 2, updated_at := 1 }, c3RowB]
    nextFileId := 3 }

/-- Claim C1: for a project owned by the caller that already contains a node
`f1` at the requested path, `createProjectFile` fails with the `PathConflict`
error and produces no new state (an `Except.error` result carries no successor
database, so no row is inserted); the per-project uniqueness check is decided
before the insert. -/
theorem createProjectFile_path_conflict
    (db : DB) (input : CreateProjectFileInput) (userId now : Nat) (f1 : ProjectFileRow)
    (hown : ownedProject db input.project_id userId ≠ [])
    (hf1 : f1 ∈ db.files) (hproj : f1.project_id = input.project_id)
    (hpath : f1.path = input.path) :
    createProjectFile db input userId now = .error "File path already exists" := by
  have hdup :
      db.files.any (fun f => f.project_id == input.project_id && f.path == input.path) = true := by
    rw [List.any_eq_true]
    exact ⟨f1, hf1, by simp [hproj, hpath]⟩
  unfold createProjectFile
  rw [if_neg hown]
  simp [hdup]

/-- Witness for C1: creating a second `/src` in the sample project hits the
path-conflict error. -/
theorem createProjectFile_path_conflict_witness :
    createProjectFile sampleDb
      { project_id := 1, path := "/src", content := "", file_type := .file, parent_id := none }
      7 5 = .error "File path already exists" :=
  createProjectFile_path_conflict sampleDb
    { project_id := 1, path := "/src", content := "", file_type := .file, parent_id := none }
    7 5 sampleDir (by decide) (by decide) rfl rfl

/-- Claim C6 divergence witness: on a project holding the directory `/src` and
the plain file `/a.txt`, `getProjectFiles` returns the file before the
directory, because `ORDER BY file_type ASC` sorts the Postgres enum by its
declaration order `['file', 'directory']`, not alphabetically as the
handler's comment assumes. -/
theorem getProjectFiles_file_before_directory :
    getProjectFiles
      { users := [sampleUser], projects := [sampleProject]
        files := [sampleDir,
          { id := 2, project_id := 1, path := "/a.txt", content := "x", file_type := .file
            parent_id := none, created_at := 0, updated_at := 0 }]
        nextFileId := 3, nextProjectId := 2 } 1 7 =
      .ok [{ id := 2, project_id := 1, path := "/a.txt", content := "x", file_type := .file
             parent_id := none, created_at := 0, updated_at := 0 }, sampleDir] ∧
    FileType.pgIndex .file < FileType.pgIndex .directory := by
  exact ⟨by decide, by decide⟩

/-- Claim C8: `loginUser` rejects an unknown email and a known email with a
failing password check with the identical error message text, so the two
failure cases are indistinguishable to the caller. -/
theorem loginUser_error_indistinguishable
    (verify : String → String → Bool) (db : DB) (inp1 inp2 : LoginUserInput) (u : UserRow)
    (h1 : db.users.filter (fun v => v.email == inp1.email) = [])
    (h2 : (db.users.filter (fun v => v.email == inp2.email)).head? = some u)
    (h3 : verify inp2.password u.password_hash = false) :
    loginUser verify db inp1 = .error "Invalid email or password" ∧
    loginUser verify db inp2 = .error "Invalid email or password" := by
  constructor
  · unfold loginUser
    rw [h1]
    rfl
  · unfold loginUser
    rw [h2]
    simp [h3]

/-- Witness for C8: with an equality-test verifier, an unknown email and a
wrong password for the sample user produce the same rejection text. -/
theorem loginUser_error_indistinguishable_witness :
    loginUser (fun p h => p == h) sampleDb { email := "nobody@example.com", password := "pw" } =
      .error "Invalid email or password" ∧
    loginUser (fun p h => p == h) sampleDb { email := "alice@example.com", password := "wrong" } =
      .error "Invalid email or password" :=
  loginUser_error_indistinguishable (fun p h => p == h) sampleDb
    { email := "nobody@example.com", password := "pw" }
    { email := "alice@example.com", password := "wrong" } sampleUser
    (by decide) (by decide) (by decide)

/-- Claim C9: once the ownership guard has passed, `deployProject` fails with
the empty-project error exactly when the project has no file rows, and
succeeds (producing a deployment URL) exactly when it has at least one. -/
theorem deployProject_requires_files
    (db : DB) (input : DeploymentRequest) (userId nowMs : Nat) (project : ProjectRow)
    (hown : (ownedProject db input.project_id userId).head? = some project) :
    (db.files.filter (fun f => f.project_id == input.project_id) = [] →
        deployProject db input userId nowMs =
          .error "No files found in project - cannot deploy empty project")
  ∧ (db.files.filter (fun f => f.project_id == input.project_id) ≠ [] →
        deployProject db input userId nowMs =
          .ok { message := "Project \"" ++ project.name ++ "\" successfully deployed to " ++
                  input.environment.name
                deployment_url :=
                  some (generateDeploymentUrl project.name input.environment nowMs) }) := by
  constructor
  · intro hempty
    unfold deployProject
    rw [hown]
    simp [hempty]
  · intro hne
    unfold deployProject
    rw [hown]
    simp [hne]

/-- Witness for C9: deploying the file-less sample project fails; deploying
the populated one succeeds. -/
theorem deployProject_requires_files_witness :
    deployProject sampleDbNoFiles { project_id := 1, environment := .production } 7 100 =
      .error "No files found in project - cannot deploy empty project" ∧
    deployProject sampleDb { project_id := 1, environment := .production } 7 100 =
      .ok { message := "Project \"" ++ sampleProject.name ++ "\" successfully deployed to " ++
              DeployEnv.name .production
            deployment_url := some (generateDeploymentUrl sampleProject.name .production 100) } :=
  ⟨(deployProject_requires_files sampleDbNoFiles
      { project_id := 1, environment := .production } 7 100 sampleProject (by decide)).1 (by decide),
   (deployProject_requires_files sampleDb
      { project_id := 1, environment := .production } 7 100 sampleProject (by decide)).2 (by decide)⟩

/-- A pair returned first by the file-ownership join contains a stored file
row. -/
theorem fileWithOwnedProject_head_mem (db : DB) (fid uid : Nat) (f : ProjectFileRow)
    (p : ProjectRow) (h : (fileWithOwnedProject db fid uid).head? = some (f, p)) :
    f ∈ db.files := by
  have hmem : (f, p) ∈ fileWithOwnedProject db fid uid :=
    List.mem_of_mem_head? (Option.mem_def.mpr h)
  unfold fileWithOwnedProject at hmem
  rw [List.mem_flatMap] at hmem
  obtain ⟨a, ha, hpair⟩ := hmem
  rw [List.mem_map] at hpair
  obtain ⟨q, _, hq⟩ := hpair
  have : a = f := congrArg Prod.fst hq
  subst this
  exact (List.mem_filter.mp ha).1

/-- Claim C2: for a directory `D` of an owned project, `deleteProjectFile`
succeeds, removing exactly the rows of `D`'s id, iff no row has
`parent_id = D.id`; with such a child it fails with the `DirectoryNotEmpty`
error (an `Except.error` result carries no successor state, so nothing is
deleted). -/
theorem deleteProjectFile_directory_spec
    (db : DB) (userId : Nat) (D : ProjectFileRow) (p : ProjectRow)
    (hjoin : (fileWithOwnedProject db D.id userId).head? = some (D, p))
    (hdir : D.file_type = FileType.directory) :
    ((∀ f ∈ db.files, f.parent_id ≠ some D.id) →
        deleteProjectFile db D.id userId =
          .ok (true, { db with files := db.files.filter (fun f => f.id ≠ D.id) }))
  ∧ ((∃ f ∈ db.files, f.parent_id = some D.id) →
        deleteProjectFile db D.id userId =
          .error "Cannot delete directory that contains files or subdirectories") := by
  constructor
  · intro hnone
    have hchild : db.files.filter (fun f => f.parent_id == some D.id) = [] := by
      rw [List.filter_eq_nil_iff]
      intro f hf
      simpa using hnone f hf
    have hfk : db.files.any (fun f => f.parent_id == some D.id && f.id != D.id) = false := by
      rw [List.any_eq_false]
      intro f hf
      simp [hnone f hf]
    have hmem : D ∈ db.files := fileWithOwnedProject_head_mem db D.id userId D p hjoin
    have hlen : (db.files.filter (fun f => f.id ≠ D.id)).length < db.files.length := by
      rw [List.length_filter_lt_length_iff_exists]
      exact ⟨D, hmem, by simp⟩
    unfold deleteProjectFile
    rw [hjoin]
    simp [hchild, hfk]
    simpa using hlen
  · rintro ⟨f, hf, hpid⟩
    have hchild : db.files.filter (fun g => g.parent_id == some D.id) ≠ [] := by
      intro hnil
      rw [List.filter_eq_nil_iff] at hnil
      exact hnil f hf (by simp [hpid])
    unfold deleteProjectFile
    rw [hjoin]
    simp [hdir, hchild]

/-- Witness for C2: deleting `/src` fails while `/src/index.ts` sits inside
it, and succeeds in the database where the directory is childless. -/
theorem deleteProjectFile_directory_spec_witness :
    deleteProjectFile sampleDb 1 7 =
      .error "Cannot delete directory that contains files or subdirectories" ∧
    deleteProjectFile sampleDbDirOnly 1 7 =
      .ok (true,
        { sampleDbDirOnly with
          files := sampleDbDirOnly.files.filter (fun f => f.id ≠ sampleDir.id) }) :=
  ⟨(deleteProjectFile_directory_spec sampleDb 7 sampleDir sampleProject (by decide) rfl).2
      ⟨sampleFile, by decide, rfl⟩,
   (deleteProjectFile_directory_spec sampleDbDirOnly 7 sampleDir sampleProject
      (by decide) rfl).1 (by decide)⟩

/-- The file-ownership join is empty when no project row owned by the caller
carries the project id of any stored row of the queried file id. -/
theorem fileWithOwnedProject_eq_nil (db : DB) (fid uid : Nat)
    (h : ∀ f ∈ db.files, f.id = fid → ownedProject db f.project_id uid = []) :
    fileWithOwnedProject db fid uid = [] := by
  unfold fileWithOwnedProject
  rw [List.flatMap_eq_nil_iff]
  intro f hf
  rw [List.mem_filter] at hf
  have hnil := h f hf.1 (by simpa using hf.2)
  unfold ownedProject at hnil
  rw [hnil]
  rfl

/-- Claim C4: each of the five mutating or single-entity operations fails with
its `NotFoundOrUnauthorized` error whenever no project row with the relevant
project id is owned by the requesting user (for the file operations, the
owning project id of any stored row of the given file id); an `Except.error`
result carries no successor state, so the guard blocks every write. -/
theorem ownershipGuard_blocks (db : DB) (userId now : Nat) :
    (∀ input : CreateProjectFileInput, ownedProject db input.project_id userId = [] →
        createProjectFile db input userId now = .error "Project not found or access denied")
  ∧ (∀ input : UpdateProjectFileInput,
        (∀ f ∈ db.files, f.id = input.id → ownedProject db f.project_id userId = []) →
        updateProjectFile db input userId now = .error "File not found or access denied")
  ∧ (∀ fid : Nat, (∀ f ∈ db.files, f.id = fid → ownedProject db f.project_id userId = []) →
        deleteProjectFile db fid userId = .error "File not found or access denied")
  ∧ (∀ input : UpdateProjectInput, ownedProject db input.id userId = [] →
        updateProject db input userId now = .error "Project not found or unauthorized")
  ∧ (∀ pid : Nat, ownedProject db pid userId = [] →
        deleteProject db pid userId = .error "Project not found or unauthorized") := by
  refine ⟨fun input h => ?_, fun input h => ?_, fun fid h => ?_, fun input h => ?_,
    fun pid h => ?_⟩
  · unfold createProjectFile
    rw [if_pos h]
  · unfold updateProjectFile
    rw [fileWithOwnedProject_eq_nil db input.id userId h]
    rfl
  · unfold deleteProjectFile
    rw [fileWithOwnedProject_eq_nil db fid userId h]
    rfl
  · unfold updateProject
    rw [h]
    rfl
  · unfold deleteProject
    rw [if_pos h]

/-- Witness for C4: on the database without any project row, all five
operations report the not-found-or-unauthorized condition. -/
theorem ownershipGuard_blocks_witness :
    createProjectFile orphanDb
        { project_id := 1, path := "/x", content := "", file_type := .file, parent_id := none }
        7 0 = .error "Project not found or access denied" ∧
    updateProjectFile orphanDb { id := 1 } 7 0 = .error "File not found or access denied" ∧
    deleteProjectFile orphanDb 1 7 = .error "File not found or access denied" ∧
    updateProject orphanDb { id := 1 } 7 0 = .error "Project not found or unauthorized" ∧
    deleteProject orphanDb 1 7 = .error "Project not found or unauthorized" := by
  have h := ownershipGuard_blocks orphanDb 7 0
  exact ⟨h.1 _ (by decide), h.2.1 { id := 1 } (by decide), h.2.2.1 1 (by decide),
    h.2.2.2.1 { id := 1 } (by decide), h.2.2.2.2 1 (by decide)⟩

/-- Claim C5: a successful `updateProjectFile` changes only the explicitly
supplied fields — with only `content` supplied, `path`, `file_type` and
`parent_id` of the returned row equal the stored row's — and every successful
update stamps the row with the fresh `updated_at` timestamp, leaving all rows
of other ids in place. -/
theorem updateProjectFile_frame (db : DB) (input : UpdateProjectFileInput) (userId now : Nat) :
    (∀ old p r db',
        (fileWithOwnedProject db input.id userId).head? = some (old, p) →
        input.path = none → input.file_type = none → input.parent_id = none →
        updateProjectFile db input userId now = .ok (r, db') →
        r.path = old.path ∧ r.file_type = old.file_type ∧ r.parent_id = old.parent_id ∧
          r.content = input.content.getD old.content ∧ r.updated_at = now)
  ∧ (∀ r db', updateProjectFile db input userId now = .ok (r, db') →
        r.updated_at = now ∧ ∀ g ∈ db.files, g.id ≠ input.id → g ∈ db'.files) := by
  constructor
  · intro old p r db' hjoin hpath hft hpid hstep
    unfold updateProjectFile at hstep
    rw [hjoin] at hstep
    simp [hpath, hft, hpid] at hstep
    obtain ⟨hr, _⟩ := hstep
    subst hr
    simp [applyFileUpdate, hpath, hft, hpid]
  · intro r db' hstep
    unfold updateProjectFile at hstep
    cases hj : (fileWithOwnedProject db input.id userId).head? with
    | none => rw [hj] at hstep; cases hstep
    | some ep =>
      obtain ⟨e, q⟩ := ep
      rw [hj] at hstep
      simp only [] at hstep
      split at hstep
      · cases hstep
      · split at hstep
        · obtain ⟨hr, hdb⟩ := by
            simpa using hstep
          constructor
          · rw [← hr]
            simp [applyFileUpdate]
          · intro g hg hne
            rw [← hdb]
            simp only []
            exact List.mem_map.mpr ⟨g, hg, by simp [hne]⟩
        · cases hstep

/-- Witness for C5: updating only the content of `/src/index.ts` keeps its
path, type and parent and stamps the update time. -/
theorem updateProjectFile_frame_witness :
    ({ sampleFile with content := "v2", updated_at := 9 } : ProjectFileRow).path =
        sampleFile.path ∧
      ({ sampleFile with content := "v2", updated_at := 9 } : ProjectFileRow).file_type =
        sampleFile.file_type ∧
      ({ sampleFile with content := "v2", updated_at := 9 } : ProjectFileRow).parent_id =
        sampleFile.parent_id ∧
      ({ sampleFile with content := "v2", updated_at := 9 } : ProjectFileRow).content =
        (some "v2").getD sampleFile.content ∧
      ({ sampleFile with content := "v2", updated_at := 9 } : ProjectFileRow).updated_at = 9 :=
  (updateProjectFile_frame sampleDb { id := 2, content := some "v2" } 7 9).1
    sampleFile sampleProject { sampleFile with content := "v2", updated_at := 9 }
    { sampleDb with files := [sampleDir, { sampleFile with content := "v2", updated_at := 9 }] }
    (by decide) rfl rfl rfl (by decide)

/-- Claim C7: `createProject` fails when the owning user does not exist, and
otherwise inserts the project row followed by exactly the two seed directory
rows `/src` and `/public` (directories with null parent) for the new
project. -/
theorem createProject_spec (db : DB) (input : CreateProjectInput) (now : Nat) :
    (db.users.filter (fun u => u.id == input.user_id) = [] →
        createProject db input now =
          .error ("User with id " ++ toString input.user_id ++ " does not exist"))
  ∧ (db.users.filter (fun u => u.id == input.user_id) ≠ [] →
      ∃ proj db', createProject db input now = .ok (proj, db') ∧
        proj.user_id = input.user_id ∧
        db'.projects = db.projects ++ [proj] ∧
        db'.files = db.files ++
          [{ id := db.nextFileId, project_id := proj.id, path := "/src", content := ""
             file_type := .directory, parent_id := none, created_at := now, updated_at := now },
           { id := db.nextFileId + 1, project_id := proj.id, path := "/public", content := ""
             file_type := .directory, parent_id := none, created_at := now,
             updated_at := now }]) := by
  constructor
  · intro h
    unfold createProject
    rw [if_pos h]
  · intro h
    unfold createProject
    rw [if_neg h]
    exact ⟨_, _, rfl, rfl, rfl, rfl⟩

/-- Witness for C7: creating a project for the missing user 99 fails, and
creating one for user 7 seeds the two directories. -/
theorem createProject_spec_witness :
    createProject sampleDb { name := "N", description := none, user_id := 99, metadata := none }
        3 = .error ("User with id " ++ toString 99 ++ " does not exist") ∧
    ∃ proj db',
      createProject sampleDb { name := "N", description := none, user_id := 7, metadata := none }
          3 = .ok (proj, db') ∧
        proj.user_id = 7 ∧
        db'.projects = sampleDb.projects ++ [proj] ∧
        db'.files = sampleDb.files ++
          [{ id := sampleDb.nextFileId, project_id := proj.id, path := "/src", content := ""
             file_type := .directory, parent_id := none, created_at := 3, updated_at := 3 },
           { id := sampleDb.nextFileId + 1, project_id := proj.id, path := "/public"
             content := "", file_type := .directory, parent_id := none, created_at := 3
             updated_at := 3 }] :=
  ⟨(createProject_spec sampleDb
      { name := "N", description := none, user_id := 99, metadata := none } 3).1 (by decide),
   (createProject_spec sampleDb
      { name := "N", description := none, user_id := 7, metadata := none } 3).2 (by decide)⟩

/-- Claim C10: for a `generation_type` drawn from the schema enum, the result
of `generateWithAi` is never the unsupported-generation-type error: the
`switch` covers the whole enum, so for well-typed requests the `default`
branch is unreachable. -/
theorem generateWithAi_supported (genFile : String → Option String → String)
    (genComponent genFeature : String → String) (genFullApp : String → String → String)
    (db : DB) (input : AiGenerationRequest) (userId now : Nat)
    (hgt : input.generation_type ∈ generationTypeEnum) :
    generateWithAi genFile genComponent genFeature genFullApp db input userId now ≠
      .error ("Unsupported generation type: " ++ input.generation_type) := by
  have hcases : input.generation_type = "file" ∨ input.generation_type = "component" ∨
      input.generation_type = "feature" ∨ input.generation_type = "full_app" := by
    simpa [generationTypeEnum] using hgt
  intro hcontra
  unfold generateWithAi at hcontra
  rcases hcases with h1 | h1 | h1 | h1 <;>
    rw [h1] at hcontra <;>
    split at hcontra <;>
      first
      | exact absurd (Except.error.inj hcontra) (by decide)
      | (simp at hcontra
         split at hcontra <;> (try split at hcontra) <;> simp_all)

/-- Witness for C10: a well-typed `full_app` request, with trivial template
generators, does not produce the unsupported-type error. -/
theorem generateWithAi_supported_witness :
    generateWithAi (fun _ _ => "g") (fun _ => "g") (fun _ => "g") (fun _ _ => "g") sampleDb
        { project_id := 1, prompt := "p", file_path := none, generation_type := "full_app" }
        7 0 ≠
      .error ("Unsupported generation type: " ++ "full_app") :=
  generateWithAi_supported (fun _ _ => "g") (fun _ => "g") (fun _ => "g") (fun _ _ => "g")
    sampleDb { project_id := 1, prompt := "p", file_path := none, generation_type := "full_app" }
    7 0 (by decide)

/-- Row parent-validity is preserved by appending a row to the table. -/
theorem validParentB_append (files : List ProjectFileRow) (x f : ProjectFileRow)
    (h : validParentB files f = true) : validParentB (files ++ [x]) f = true := by
  unfold validParentB at h ⊢
  cases hp : f.parent_id with
  | none => rfl
  | some pid =>
    rw [hp] at h
    have h' : (files.any fun d => d.id == pid && d.project_id == f.project_id &&
        d.file_type == FileType.directory) = true := h
    clear h
    show ((files ++ [x]).any fun d => d.id == pid && d.project_id == f.project_id &&
        d.file_type == FileType.directory) = true
    rw [List.any_append, h']
    rfl

/-- A successful `createProjectFile` preserves the §3 parent invariant: the
modelled handler admits a parent only after finding it in the same project
with `file_type = directory`. -/
theorem createProjectFile_preserves_parentOk
    (db : DB) (input : CreateProjectFileInput) (userId now : Nat) (r : ProjectFileRow)
    (db' : DB) (hinv : parentOk db.files)
    (hstep : createProjectFile db input userId now = .ok (r, db')) :
    parentOk db'.files := by
  unfold createProjectFile at hstep
  by_cases h1 : ownedProject db input.project_id userId = []
  · rw [if_pos h1] at hstep
    cases hstep
  · rw [if_neg h1] at hstep
    by_cases h2 :
        (db.files.any fun f => f.project_id == input.project_id && f.path == input.path) = true
    · rw [if_pos h2] at hstep
      cases hstep
    · rw [if_neg h2] at hstep
      cases hpid : input.parent_id with
      | none =>
        rw [hpid] at hstep
        have hpair : insertFile db input now = (r, db') := by
          injection hstep
        have hdb : (insertFile db input now).2 = db' := congrArg Prod.snd hpair
        rw [← hdb]
        intro f hf
        have hf' : f ∈ db.files ++ [(insertFile db input now).1] := hf
        rw [List.mem_append] at hf'
        rcases hf' with hold | hnew
        · exact validParentB_append _ _ _ (hinv f hold)
        · rw [List.mem_singleton] at hnew
          subst hnew
          show validParentB (db.files ++ [(insertFile db input now).1])
            (insertFile db input now).1 = true
          unfold validParentB insertFile
          simp [hpid]
      | some pid =>
        rw [hpid] at hstep
        have hstep' :
            (match (db.files.filter (fun f => f.id == pid &&
                f.project_id == input.project_id)).head? with
              | none => (Except.error "Parent directory not found" :
                  Except String (ProjectFileRow × DB))
              | some parent =>
                if parent.file_type = FileType.directory then .ok (insertFile db input now)
                else .error "Parent must be a directory") = .ok (r, db') := hstep
        cases hhead : (db.files.filter (fun f => f.id == pid &&
            f.project_id == input.project_id)).head? with
        | none =>
          rw [hhead] at hstep'
          cases hstep'
        | some parent =>
          rw [hhead] at hstep'
          have hstep2 :
              (if parent.file_type = FileType.directory then
                  (Except.ok (insertFile db input now) : Except String (ProjectFileRow × DB))
                else .error "Parent must be a directory") = .ok (r, db') := hstep'
          by_cases hdir : parent.file_type = FileType.directory
          · rw [if_pos hdir] at hstep2
            have hpair : insertFile db input now = (r, db') := by
              injection hstep2
            have hdb : (insertFile db input now).2 = db' := congrArg Prod.snd hpair
            rw [← hdb]
            have hparent := List.mem_of_mem_head? (Option.mem_def.mpr hhead)
            rw [List.mem_filter] at hparent
            obtain ⟨hpmem, hpcond⟩ := hparent
            simp at hpcond
            obtain ⟨hpid2, hpproj⟩ := hpcond
            intro f hf
            have hf' : f ∈ db.files ++ [(insertFile db input now).1] := hf
            rw [List.mem_append] at hf'
            rcases hf' with hold | hnew
            · exact validParentB_append _ _ _ (hinv f hold)
            · rw [List.mem_singleton] at hnew
              subst hnew
              show validParentB (db.files ++ [(insertFile db input now).1])
                (insertFile db input now).1 = true
              unfold validParentB insertFile
              simp only [hpid]
              rw [List.any_eq_true]
              exact ⟨parent, List.mem_append_left _ hpmem, by simp [hpid2, hpproj, hdir]⟩
          · rw [if_neg hdir] at hstep2
            cases hstep2

/-- A successful `deleteProjectFile` preserves the §3 parent invariant: the
foreign-key guard rules out removing a row some surviving row still
references. -/
theorem deleteProjectFile_preserves_parentOk
    (db : DB) (fid uid : Nat) (b : Bool) (db' : DB)
    (hinv : parentOk db.files)
    (hstep : deleteProjectFile db fid uid = .ok (b, db')) :
    parentOk db'.files := by
  unfold deleteProjectFile at hstep
  cases hjoin : (fileWithOwnedProject db fid uid).head? with
  | none =>
    rw [hjoin] at hstep
    cases hstep
  | some fp =>
    obtain ⟨fileData, p⟩ := fp
    rw [hjoin] at hstep
    have hstep1 :
        (if fileData.file_type = FileType.directory ∧
            (db.files.filter (fun f => f.parent_id == some fid)) ≠ [] then
          (Except.error "Cannot delete directory that contains files or subdirectories" :
            Except String (Bool × DB))
        else if db.files.any (fun f => f.parent_id == some fid && f.id != fid) then
          .error "update or delete on table project_files violates foreign key constraint"
        else
          .ok (decide ((db.files.filter (fun f => f.id ≠ fid)).length < db.files.length),
            { db with files := db.files.filter (fun f => f.id ≠ fid) })) =
          .ok (b, db') := hstep
    by_cases hc1 : fileData.file_type = FileType.directory ∧
        (db.files.filter (fun f => f.parent_id == some fid)) ≠ []
    · rw [if_pos hc1] at hstep1
      cases hstep1
    · rw [if_neg hc1] at hstep1
      by_cases hfk : (db.files.any fun f => f.parent_id == some fid && f.id != fid) = true
      · rw [if_pos hfk] at hstep1
        cases hstep1
      · rw [if_neg hfk] at hstep1
        have hdb : ({ db with files := db.files.filter (fun f => f.id ≠ fid) } : DB) = db' := by
          injection hstep1 with hp2
          exact congrArg Prod.snd hp2
        rw [← hdb]
        intro f hf
        have hf' : f ∈ db.files.filter (fun g => decide (g.id ≠ fid)) := hf
        rw [List.mem_filter] at hf'
        obtain ⟨hfmem, hfidb⟩ := hf'
        have hfid : f.id ≠ fid := by simpa using hfidb
        have hv := hinv f hfmem
        unfold validParentB at hv ⊢
        cases hp : f.parent_id with
        | none => rfl
        | some pid =>
          rw [hp] at hv
          have hv' : (db.files.any fun d => d.id == pid && d.project_id == f.project_id &&
              d.file_type == FileType.directory) = true := hv
          rw [List.any_eq_true] at hv'
          obtain ⟨d, hd, hcond⟩ := hv'
          have hcond' := hcond
          simp only [Bool.and_eq_true, beq_iff_eq] at hcond'
          have hdid : d.id = pid := hcond'.1.1
          have hpidne : pid ≠ fid := by
            intro hEq
            apply hfk
            rw [List.any_eq_true]
            subst hEq
            exact ⟨f, hfmem, by simp [hp, hfid]⟩
          show ((db.files.filter (fun g => decide (g.id ≠ fid))).any fun d =>
              d.id == pid && d.project_id == f.project_id &&
                d.file_type == FileType.directory) = true
          rw [List.any_eq_true]
          refine ⟨d, ?_, hcond⟩
          rw [List.mem_filter]
          refine ⟨hd, ?_⟩
          simp [hdid]
          exact hpidne

/-- Claim C3 counterexample: the claimed invariant fails over the full
operation set.  From an empty project, create the plain files `/a` and `/b`,
then call `updateProjectFile` re-parenting `/a` under `/b`: the handler
performs no parent validation, so the resulting reachable state holds a row
whose parent is a non-directory. -/
theorem reach_parentOk_counterexample :
    ¬ (∀ db : DB, Reach db → parentOk db.files) := by
  intro h
  have h0 : Reach sampleDbNoFiles := Reach.init sampleDbNoFiles rfl
  have h1 : Reach c3Db1 := Reach.create sampleDbNoFiles
    { project_id := 1, path := "/a", content := "", file_type := .file, parent_id := none }
    7 0 c3RowA c3Db1 h0 (by decide)
  have h2 : Reach c3Db2 := Reach.create c3Db1
    { project_id := 1, path := "/b", content := "", file_type := .file, parent_id := none }
    7 0 c3RowB c3Db2 h1 (by decide)
  have h3 : Reach c3Db3 := Reach.update c3Db2
    { id := 1, parent_id := some (some 2) } 7 1
    { c3RowA with parent_id := some 2, updated_at := 1 } c3Db3 h2 (by decide)
  have hbad : ¬ parentOk c3Db3.files := by
    unfold parentOk
    decide
  exact hbad (h c3Db3 h3)

/-- Claim C3 (amended): in every state reachable from a file-less database by
sequences of `createProjectFile` and `deleteProjectFile` alone, every file
row with a non-null `parent_id` references an existing row of the same
project with `file_type = directory`; `updateProjectFile` performs no parent
validation and can break the invariant (see the counterexample). -/
theorem reachCD_parentOk (db : DB) (h : ReachCD db) : parentOk db.files := by
  induction h with
  | init db hfiles =>
    intro f hf
    rw [hfiles] at hf
    cases hf
  | create db input userId now r db' hdb hstep ih =>
    exact createProjectFile_preserves_parentOk db input userId now r db' ih hstep
  | del db fid uid b db' hdb hstep ih =>
    exact deleteProjectFile_preserves_parentOk db fid uid b db' ih hstep

/-- Witness for the amended C3: the state holding just the created `/a` is
reachable by create steps and satisfies the invariant. -/
theorem reachCD_parentOk_witness : parentOk c3Db1.files :=
  reachCD_parentOk c3Db1
    (ReachCD.create sampleDbNoFiles
      { project_id := 1, path := "/a", content := "", file_type := .file, parent_id := none }
      7 0 c3RowA c3Db1 (ReachCD.init sampleDbNoFiles rfl) (by decide))

end AiBuilder
